import Mathlib

/-!
# Discord IPC client and TIDAL window-title scan

A shallow embedding of `discord.go` and `tidal.go`.

* Bytes are `Fin 256`; Go's `int32` is an `Int` kept in `[-2^31, 2^31)`, with the
  conversions `uint32(x)` and `int32(x)` written out as explicit reductions modulo `2^32`.
* A `net.Conn` is a record holding the scripted outcomes of its future `Read` and `Write`
  calls together with a log of the calls made so far, so "no I/O happened" is a statement
  about the logs.
* Library calls whose result the program only passes along (`json.Marshal`,
  `json.Unmarshal`, `json.Valid`, `os.Getpid`, `winio.DialPipe`, `rand.Read`,
  `exec.Cmd.Output`, `csv.Reader.ReadAll`) are parameters.
* A Go function returning `(*T, error)` returns `Except String T`: every error path of the
  source returns `nil` for the value, every success path returns `nil` for the error.
* A run-time panic and `log.Fatalln` are outcomes of their own (`Exec.panic`, `Exec.fatal`).
-/

namespace DiscordTidal

/-- One byte. -/
abbrev Byte := Fin 256

deriving instance DecidableEq for Except

/-- How a call ends: it returns, it panics, or `log.Fatalln` ends the process. -/
inductive Exec (α : Type) where
  | ret (a : α)
  | panic (msg : String)
  | fatal (msg : String)
  deriving DecidableEq, Repr

/-- The panic raised by a method call on a nil interface value. -/
def nilDeref : String := "runtime error: invalid memory address or nil pointer dereference"

/-! ## encoding/binary, little endian -/

/-- Go's `byte(x)` for an unsigned `x`: the low eight bits. -/
def toByte (x : Nat) : Byte := ⟨x % 256, Nat.mod_lt x (by decide)⟩

/-- Go's `uint32(x)` for a signed `x`: the residue modulo `2^32`. -/
def toUint32 (x : Int) : Nat := (x % 4294967296).toNat

/-- Go's `int32(x)`: the two's-complement reading of the low 32 bits. -/
def toInt32 (x : Int) : Int :=
  if x % 4294967296 < 2147483648 then x % 4294967296 else x % 4294967296 - 4294967296

/-- The function `binary.LittleEndian.PutUint32`: `b[i] = byte(v >> (8*i))`. -/
def putUint32 (v : Nat) : List Byte :=
  [toByte v, toByte (v / 256), toByte (v / 65536), toByte (v / 16777216)]

/-- The function `binary.LittleEndian.Uint32` on four bytes. -/
def uint32 (b0 b1 b2 b3 : Byte) : Nat :=
  b0.val + b1.val * 256 + b2.val * 65536 + b3.val * 16777216

/-- The call `binary.Write(buffer, binary.LittleEndian, v)` for an `int32` value `v`: the four
bytes appended to the buffer (writing to a `bytes.Buffer` cannot fail). -/
def binaryWriteInt32 (v : Int) : List Byte := putUint32 (toUint32 v)

/-- The call `binary.Read(r, binary.LittleEndian, &x)` for an `int32` destination: the value
and the unread rest of the reader, or the error of a reader with fewer than four bytes. -/
def binaryReadInt32 : List Byte → Except String (Int × List Byte)
  | b0 :: b1 :: b2 :: b3 :: rest => .ok (toInt32 (uint32 b0 b1 b2 b3), rest)
  | [] => .error "EOF"
  | _ => .error "unexpected EOF"

/-! ## The connection -/

/-- The outcome scripted for one `Read` call: the bytes the peer has ready and the error the
call reports. -/
structure ReadStep where
  avail : List Byte
  err : Option String
  deriving DecidableEq, Repr

/-- A `net.Conn` value. `script` and `writeScript` are the outcomes of the calls still to
come, `reads` logs the buffer length of every `Read` call made, `writes` logs the byte
slice of every `Write` call made. -/
structure Conn where
  script : List ReadStep
  writeScript : List (Option String)
  reads : List Nat
  writes : List (List Byte)
  closed : Bool
  deriving DecidableEq, Repr

/-- What one `Read` call hands back: the buffer afterwards, `n`, the error, the connection. -/
structure ReadResult where
  buf : List Byte
  n : Nat
  err : Option String
  conn : Conn
  deriving DecidableEq, Repr

/-- A zeroed buffer of length `k` (Go's `make([]byte, k)`) after `avail` was copied into its
front; at most `k` bytes fit. -/
def fillBuf (k : Nat) (avail : List Byte) : List Byte :=
  avail.take k ++ List.replicate (k - (avail.take k).length) (0 : Byte)

/-- The call `conn.Read(buf)` on a fresh buffer of length `k`. With nothing scripted the
peer has closed: zero bytes and `EOF`. -/
def Conn.Read (c : Conn) (k : Nat) : ReadResult :=
  match c.script with
  | [] =>
    { buf := fillBuf k [], n := 0, err := some "EOF",
      conn := { c with reads := c.reads ++ [k] } }
  | s :: rest =>
    { buf := fillBuf k s.avail, n := (s.avail.take k).length, err := s.err,
      conn := { c with script := rest, reads := c.reads ++ [k] } }

/-- The call `conn.Write(b)`: the slice is logged; the error is the scripted one, none when
nothing is scripted. The byte count is dropped, as the program drops it. -/
def Conn.Write (c : Conn) (b : List Byte) : Option String × Conn :=
  match c.writeScript with
  | [] => (none, { c with writes := c.writes ++ [b] })
  | e :: rest => (e, { c with writeScript := rest, writes := c.writes ++ [b] })

/-- The call `conn.Close()`; its error is discarded by the only caller. -/
def Conn.Close (c : Conn) : Conn := { c with closed := true }

/-! ## Data types of discord.go -/

structure Handshake where
  Version : String
  ClientID : String
  deriving DecidableEq, Repr

structure Assets where
  LargeImage : String
  LargeText : String
  SmallImage : String
  SmallText : String
  deriving DecidableEq, Repr

structure Activity where
  Details : String
  State : String
  Assets : Assets
  deriving DecidableEq, Repr

structure DiscordRawResponse where
  Opcode : Int
  Length : Int
  Data : List Byte
  Valid : Bool
  deriving DecidableEq, Repr

structure Arguments where
  Pid : Int
  Activity : Activity
  deriving DecidableEq, Repr

structure Frame where
  Command : String
  Arguments : Arguments
  Nonce : List Byte
  deriving DecidableEq, Repr

structure DiscordResponseUser where
  ID : String
  Username : String
  Discriminator : String
  Avatar : String
  Bot : Bool
  Flags : Int
  PremiumType : Int
  deriving DecidableEq, Repr

structure DiscordResponseConfig where
  CDNHost : String
  APIEndpoint : String
  Environment : String
  deriving DecidableEq, Repr

structure DiscordResponseData where
  Config : Option DiscordResponseConfig
  User : Option DiscordResponseUser
  deriving DecidableEq, Repr

structure DiscordResponse where
  Version : String
  Command : String
  Data : DiscordResponseData
  Event : String
  Nonce : String
  deriving DecidableEq, Repr

/-- The client. A nil `connection` is `none`. -/
structure DiscordIPC where
  Version : String
  ClientID : String
  connection : Option Conn
  connected : Bool
  deriving DecidableEq, Repr

/-- The library and operating-system calls the client makes. -/
structure Env where
  marshalHandshake : Handshake → Except String (List Byte)
  marshalFrame : Frame → Except String (List Byte)
  unmarshal : List Byte → Except String DiscordResponse
  jsonValid : List Byte → Bool
  getpid : Int
  dialPipe : String → Except String Conn

/-- The outcome of one `rand.Read` call: the random bytes and the error. -/
structure RandStep where
  bytes : List Byte
  err : Option String
  deriving DecidableEq, Repr

/-! ## Operations of discord.go -/

/-- The function `Nonce`. -/
def Nonce (r : RandStep) : Exec (List Byte) :=
  let nonce := fillBuf 12 r.bytes
  match r.err with
  | some e => .panic e
  | none => .ret nonce

/-- The text of the short-header error; `string(n)` on an integer is the one-character string
of that code point. -/
def headerError (n : Nat) : String :=
  "expected 8 byte header from discord ipc, got " ++ String.singleton (Char.ofNat n) ++
    " byte(s) instead"

/-- The method `DiscordIPC.Read`. -/
def DiscordIPC.Read (env : Env) (client : DiscordIPC) :
    Exec (Except String DiscordRawResponse × DiscordIPC) :=
  match client.connection with
  | none => .panic nilDeref
  | some c =>
    let r1 := c.Read 8
    let client1 := { client with connection := some r1.conn }
    match r1.err with
    | some e => .ret (.error e, client1)
    | none =>
      if r1.n ≠ 8 then .ret (.error (headerError r1.n), client1)
      else
        match binaryReadInt32 r1.buf with
        | .error e => .ret (.error e, client1)
        | .ok (opcode, headerBuffer) =>
          match binaryReadInt32 headerBuffer with
          | .error e => .ret (.error e, client1)
          | .ok (length, _) =>
            if length < 0 then .panic "runtime error: makeslice: len out of range"
            else
              let r2 := r1.conn.Read length.toNat
              let client2 := { client with connection := some r2.conn }
              match r2.err with
              | some e => .ret (.error e, client2)
              | none =>
                .ret (.ok { Opcode := opcode, Length := length, Data := r2.buf,
                            Valid := env.jsonValid r2.buf }, client2)

/-- The bytes `DiscordIPC.Write` collects in its buffer before the connection is touched. -/
def frameBytes (opcode : Int) (payload : List Byte) : List Byte :=
  binaryWriteInt32 opcode ++ binaryWriteInt32 (toInt32 payload.length) ++ payload

/-- The method `DiscordIPC.Write`. -/
def DiscordIPC.Write (client : DiscordIPC) (opcode : Int) (payload : List Byte) :
    Exec (Option String × DiscordIPC) :=
  let buffer := frameBytes opcode payload
  match client.connection with
  | none => .panic nilDeref
  | some c =>
    let w := c.Write buffer
    .ret (w.1, { client with connection := some w.2 })

/-- The method `DiscordIPC.Send`. -/
def DiscordIPC.Send (env : Env) (client : DiscordIPC) (opcode : Int) (payload : List Byte) :
    Exec (Except String DiscordRawResponse × DiscordIPC) :=
  match client.Write opcode payload with
  | .panic m => .panic m
  | .fatal m => .fatal m
  | .ret (some e, client1) => .ret (.error e, client1)
  | .ret (none, client1) =>
    match client1.Read env with
    | .panic m => .panic m
    | .fatal m => .fatal m
    | .ret (.error e, client2) => .ret (.error e, client2)
    | .ret (.ok response, client2) => .ret (.ok response, client2)

/-- The method `DiscordIPC.Login`. -/
def DiscordIPC.Login (env : Env) (client : DiscordIPC) :
    Exec (Except String DiscordResponse × DiscordIPC) :=
  if client.Version = "" ∨ client.ClientID = "" then
    .ret (.error "client values Version and ClientID must both be set", client)
  else if client.connected = false then
    .ret (.error "client must call Connect() first", client)
  else
    match env.marshalHandshake { Version := client.Version, ClientID := client.ClientID } with
    | .error e => .ret (.error e, client)
    | .ok payload =>
      match client.Send env 0 payload with
      | .panic m => .panic m
      | .fatal m => .fatal m
      | .ret (.error e, client1) => .ret (.error e, client1)
      | .ret (.ok raw, client1) =>
        match env.unmarshal raw.Data with
        | .error e => .ret (.error e, client1)
        | .ok response => .ret (.ok response, client1)

/-- The method `DiscordIPC.SetActivity`; `r` is the outcome of the `rand.Read` call that
`Nonce` makes while the frame is built. -/
def DiscordIPC.SetActivity (env : Env) (r : RandStep) (client : DiscordIPC)
    (activity : Activity) : Exec (Except String DiscordResponse × DiscordIPC) :=
  match Nonce r with
  | .panic m => .panic m
  | .fatal m => .fatal m
  | .ret nonce =>
    match env.marshalFrame
        { Command := "SET_ACTIVITY",
          Arguments := { Pid := env.getpid, Activity := activity },
          Nonce := nonce } with
    | .error e => .fatal ("Error trying to Marshal activity payload: " ++ e)
    | .ok payload =>
      match client.Send env 1 payload with
      | .panic m => .panic m
      | .fatal m => .fatal m
      | .ret (.error e, client1) => .ret (.error e, client1)
      | .ret (.ok rawResponse, client1) =>
        match env.unmarshal rawResponse.Data with
        | .error e => .ret (.error e, client1)
        | .ok response => .ret (.ok response, client1)

/-- The method `DiscordIPC.ConnectToInstance`; the returned option is the Go `error`. -/
def DiscordIPC.ConnectToInstance (env : Env) (client : DiscordIPC) (inst : String) :
    Option String × DiscordIPC :=
  match env.dialPipe ("\\\\.\\pipe\\discord-ipc-" ++ inst) with
  | .error e => (some e, client)
  | .ok cx => (none, { client with connection := some cx, connected := true })

/-- The method `DiscordIPC.Connect`. -/
def DiscordIPC.Connect (env : Env) (client : DiscordIPC) : Option String × DiscordIPC :=
  client.ConnectToInstance env "0"

/-- The method `DiscordIPC.Disconnect`. -/
def DiscordIPC.Disconnect (client : DiscordIPC) : Exec DiscordIPC :=
  match client.connection with
  | none => .panic nilDeref
  | some c => .ret { client with connection := some c.Close, connected := false }

/-- One complaint raised by `TestNonce` through `t.Error` or `t.Errorf`. -/
inductive TestFailure where
  | shortNonce (len : Nat)
  | sameValue (nonce1 nonce2 : List Byte)
  deriving DecidableEq, Repr

/-- The test `TestNonce` of discord_test.go: the complaints it raises, given the outcomes of
the two `rand.Read` calls. -/
def TestNonce (r1 r2 : RandStep) : Exec (List TestFailure) :=
  match Nonce r1 with
  | .panic m => .panic m
  | .fatal m => .fatal m
  | .ret nonce1 =>
    match Nonce r2 with
    | .panic m => .panic m
    | .fatal m => .fatal m
    | .ret nonce2 =>
      .ret ((if nonce1.length < 12 then [TestFailure.shortNonce nonce1.length] else []) ++
            (if nonce1 = nonce2 then [TestFailure.sameValue nonce1 nonce2] else []))

/-! ## tidal.go -/

/-- The loop of `WindowTitle` over the rows after the header: the last column of the first
row whose last column is not "N/A". Indexing the last column of a row without columns
panics. -/
def scanRows : List (List String) → Exec (Except String String)
  | [] => .ret (.ok "")
  | row :: rest =>
    match row.getLast? with
    | none => .panic "runtime error: index out of range [-1]"
    | some text => if text ≠ "N/A" then .ret (.ok text) else scanRows rest

/-- The function `WindowTitle`. `output` runs TASKLIST.EXE with the given arguments and
returns its standard output, `readAll` is `csv.Reader.ReadAll`. The slice expression
`records[1:]` panics on a slice of length zero. -/
def WindowTitle (output : String → List String → Except String (List Byte))
    (readAll : List Byte → Except String (List (List String))) (imageName : String) :
    Exec (Except String String) :=
  let shellArgs := ["/FI", "IMAGENAME eq " ++ imageName, "/FO", "CSV", "/V"]
  match output "TASKLIST.EXE" shellArgs with
  | .error e => .ret (.error e)
  | .ok out =>
    match readAll out with
    | .error e => .ret (.error e)
    | .ok records =>
      if records.length < 1 then
        .panic "runtime error: slice bounds out of range [1:0]"
      else scanRows (records.drop 1)

/-! ## Concrete values used by the worked examples -/

/-- A connection on which nothing has happened yet and whose peer will send `steps`. -/
def freshConn (steps : List ReadStep) : Conn :=
  { script := steps, writeScript := [], reads := [], writes := [], closed := false }

/-- The reply the example peer sends: header `opcode 1, length 2`, then the two bytes of an
empty JSON object. -/
def replyHeader : List Byte := [1, 0, 0, 0, 2, 0, 0, 0]

/-- The two bytes of an empty JSON object. -/
def emptyObject : List Byte := [123, 125]

/-- The typed response the example decoder produces. -/
def exampleResponse : DiscordResponse :=
  { Version := "", Command := "SET_ACTIVITY", Data := { Config := none, User := none },
    Event := "", Nonce := "" }

/-- An environment whose peer accepts the dial and answers every request with `replyHeader`
followed by `emptyObject`, and whose JSON calls all succeed. -/
def exampleEnv : Env :=
  { marshalHandshake := fun _ => .ok emptyObject
    marshalFrame := fun _ => .ok emptyObject
    unmarshal := fun _ => .ok exampleResponse
    jsonValid := fun _ => true
    getpid := 4242
    dialPipe := fun _ => .ok (freshConn [⟨replyHeader, none⟩, ⟨emptyObject, none⟩]) }

/-- An environment in which no pipe can be dialled. -/
def offlineEnv : Env :=
  { exampleEnv with dialPipe := fun _ => .error "open pipe: file not found" }

/-- A client as `main` and the tests construct it: identity set, never connected. -/
def newClient : DiscordIPC :=
  { Version := "1", ClientID := "424242", connection := none, connected := false }

/-- An activity as the test passes it. -/
def exampleActivity : Activity :=
  { Details := "Song", State := "by Artist",
    Assets := { LargeImage := "none", LargeText := "none", SmallImage := "none",
                SmallText := "none" } }

/-- A `rand.Read` outcome: twelve bytes, no error. -/
def exampleRand : RandStep :=
  { bytes := [7, 1, 8, 2, 8, 1, 8, 2, 8, 4, 5, 9], err := none }

/-- A peer that announces four payload bytes and then supplies two, without an error. -/
def shortPayloadConn : Conn :=
  freshConn [⟨[1, 0, 0, 0, 4, 0, 0, 0], none⟩, ⟨emptyObject, none⟩]

/-! ## Lemmas on the little-endian codec and on buffers -/

theorem toUint32_lt (x : Int) : toUint32 x < 4294967296 := by
  unfold toUint32
  omega

theorem toUint32_of_range (x : Int) (h1 : -2147483648 ≤ x) (h2 : x < 2147483648) :
    (toUint32 x : Int) = if 0 ≤ x then x else x + 4294967296 := by
  unfold toUint32
  split <;> omega

theorem uint32_putUint32 (v : Nat) (h : v < 4294967296) :
    uint32 (toByte v) (toByte (v / 256)) (toByte (v / 65536)) (toByte (v / 16777216)) = v := by
  simp only [uint32, toByte]
  omega

theorem toInt32_toUint32 (x : Int) (h1 : -2147483648 ≤ x) (h2 : x < 2147483648) :
    toInt32 (toUint32 x : Int) = x := by
  unfold toInt32 toUint32
  split <;> omega

theorem toInt32_of_range (x : Int) (h1 : -2147483648 ≤ x) (h2 : x < 2147483648) :
    toInt32 x = x := by
  unfold toInt32
  split <;> omega

theorem binaryReadInt32_binaryWriteInt32 (x : Int) (rest : List Byte)
    (h1 : -2147483648 ≤ x) (h2 : x < 2147483648) :
    binaryReadInt32 (binaryWriteInt32 x ++ rest) = .ok (x, rest) := by
  simp only [binaryWriteInt32, putUint32, List.cons_append, List.nil_append, binaryReadInt32]
  rw [uint32_putUint32 _ (toUint32_lt x), toInt32_toUint32 x h1 h2]

theorem binaryWriteInt32_length (x : Int) : (binaryWriteInt32 x).length = 4 := rfl

theorem fillBuf_length (k : Nat) (avail : List Byte) : (fillBuf k avail).length = k := by
  simp only [fillBuf, List.length_append, List.length_replicate, List.length_take]
  omega

theorem fillBuf_exact (k : Nat) (avail : List Byte) (h : avail.length = k) :
    fillBuf k avail = avail := by
  simp [fillBuf, h]

theorem frameBytes_length (O : Int) (P : List Byte) :
    (frameBytes O P).length = 8 + P.length := by
  simp only [frameBytes, List.length_append, binaryWriteInt32_length]

theorem frameBytes_split (O : Int) (P h p : List Byte) (hh : h.length = 8)
    (heq : h ++ p = frameBytes O P) :
    h = binaryWriteInt32 O ++ binaryWriteInt32 (toInt32 P.length) ∧ p = P := by
  have hl : h.length = (binaryWriteInt32 O ++ binaryWriteInt32 (toInt32 P.length)).length := by
    simp [hh, binaryWriteInt32_length]
  have := List.append_inj (by simpa [frameBytes] using heq) hl
  exact this

theorem Conn_Write_writes (c : Conn) (b : List Byte) :
    (c.Write b).2.writes = c.writes ++ [b] := by
  unfold Conn.Write
  split <;> rfl

theorem Conn_Write_reads (c : Conn) (b : List Byte) : (c.Write b).2.reads = c.reads := by
  unfold Conn.Write
  split <;> rfl

theorem Conn_Read_reads (c : Conn) (k : Nat) : (c.Read k).conn.reads = c.reads ++ [k] := by
  unfold Conn.Read
  split <;> rfl

theorem Conn_Read_writes (c : Conn) (k : Nat) : (c.Read k).conn.writes = c.writes := by
  unfold Conn.Read
  split <;> rfl

theorem DiscordIPC_Write_eq (client : DiscordIPC) (c : Conn) (O : Int) (P : List Byte)
    (hc : client.connection = some c) :
    client.Write O P =
      .ret ((c.Write (frameBytes O P)).1,
        { client with connection := some (c.Write (frameBytes O P)).2 }) := by
  simp only [DiscordIPC.Write, hc]

/-- Reading back a frame: when the next two `Read` calls report no error and deliver the
eight header bytes and then the payload of `frameBytes O P`, `Read` returns that frame. -/
theorem Read_frameBytes (env : Env) (b : DiscordIPC) (cb : Conn) (O : Int) (P : List Byte)
    (rest : List ReadStep)
    (hO : -2147483648 ≤ O ∧ O < 2147483648) (hP : P.length < 2147483648)
    (hb : b.connection = some cb)
    (hs : cb.script =
      ⟨binaryWriteInt32 O ++ binaryWriteInt32 (toInt32 P.length), none⟩ :: ⟨P, none⟩ :: rest) :
    b.Read env =
      .ret (.ok { Opcode := O, Length := P.length, Data := P, Valid := env.jsonValid P },
        { b with
          connection := some { cb with script := rest, reads := cb.reads ++ [8, P.length] } }) := by
  have hlen : toInt32 (P.length : Int) = P.length := toInt32_of_range _ (by omega) (by omega)
  have hl8 : (binaryWriteInt32 O ++ binaryWriteInt32 (toInt32 P.length)).length = 8 := by
    simp [binaryWriteInt32_length]
  have hr1 : binaryReadInt32 (binaryWriteInt32 O ++ binaryWriteInt32 (toInt32 P.length)) =
      .ok (O, binaryWriteInt32 (toInt32 P.length)) :=
    binaryReadInt32_binaryWriteInt32 O _ hO.1 hO.2
  have hr2 : binaryReadInt32 (binaryWriteInt32 (toInt32 P.length)) =
      .ok ((P.length : Int), []) := by
    have := binaryReadInt32_binaryWriteInt32 (P.length : Int) [] (by omega) (by omega)
    rw [List.append_nil] at this
    rw [hlen]
    exact this
  have hnn : ¬ ((P.length : Int) < 0) := by omega
  simp only [DiscordIPC.Read, hb, Conn.Read, hs, fillBuf_exact 8 _ hl8,
    List.take_of_length_le (le_of_eq hl8), hl8, hr1, hr2, hnn, ne_eq, not_true_eq_false,
    if_false, Int.toNat_ofNat, fillBuf_exact P.length P rfl, List.append_assoc,
    List.singleton_append]

/-! ## The frame codec -/

/-- C5: for an int32 opcode `O` and a payload `P` shorter than `2^31` bytes, `Write` makes
exactly one write call and no read call; the slice it hands over is eight header bytes
followed by `P` verbatim, the first four bytes being `O` in little-endian two's complement
(the unsigned value `O`, or `O + 2^32` when `O` is negative) and the next four being
`len(P)` in little endian. -/
theorem Write_wire_layout (client : DiscordIPC) (c : Conn) (O : Int) (P : List Byte)
    (hO : -2147483648 ≤ O ∧ O < 2147483648) (hP : P.length < 2147483648)
    (hc : client.connection = some c) :
    ∃ (err : Option String) (c' : Conn) (b0 b1 b2 b3 l0 l1 l2 l3 : Byte),
      client.Write O P = .ret (err, { client with connection := some c' }) ∧
      c'.writes = c.writes ++ [[b0, b1, b2, b3, l0, l1, l2, l3] ++ P] ∧
      c'.reads = c.reads ∧
      ([b0, b1, b2, b3, l0, l1, l2, l3] ++ P).length = 8 + P.length ∧
      ((b0.val : Int) + 256 * b1.val + 65536 * b2.val + 16777216 * b3.val =
        if 0 ≤ O then O else O + 4294967296) ∧
      l0.val + 256 * l1.val + 65536 * l2.val + 16777216 * l3.val = P.length := by
  have hlen : toInt32 (P.length : Int) = P.length := toInt32_of_range _ (by omega) (by omega)
  have hu := uint32_putUint32 _ (toUint32_lt O)
  have hl := uint32_putUint32 _ (toUint32_lt (P.length : Int))
  have hO' := toUint32_of_range O hO.1 hO.2
  have hL' := toUint32_of_range (P.length : Int) (by omega) (by omega)
  simp only [uint32] at hu hl
  refine ⟨(c.Write (frameBytes O P)).1, (c.Write (frameBytes O P)).2,
    toByte (toUint32 O), toByte (toUint32 O / 256), toByte (toUint32 O / 65536),
    toByte (toUint32 O / 16777216),
    toByte (toUint32 P.length), toByte (toUint32 P.length / 256),
    toByte (toUint32 P.length / 65536), toByte (toUint32 P.length / 16777216),
    DiscordIPC_Write_eq client c O P hc, ?_, Conn_Write_reads c _, ?_, ?_, ?_⟩
  · rw [Conn_Write_writes]
    simp only [frameBytes, binaryWriteInt32, putUint32, hlen, List.cons_append,
      List.nil_append]
  · simp only [List.cons_append, List.nil_append, List.length_cons]
    omega
  · rw [← hO']
    omega
  · have h0 : (0 : Int) ≤ (P.length : Int) := by omega
    rw [if_pos h0] at hL'
    omega

/-- A concrete instance of `Write_wire_layout`: opcode `-2`, payload `[5, 6]`. -/
theorem Write_wire_layout_witness :
    ((-2147483648 : Int) ≤ -2 ∧ (-2 : Int) < 2147483648) ∧
    ([5, 6] : List Byte).length < 2147483648 ∧
    ∃ (err : Option String) (c' : Conn) (b0 b1 b2 b3 l0 l1 l2 l3 : Byte),
      DiscordIPC.Write { newClient with connection := some (freshConn []) } (-2) [5, 6] =
        .ret (err, { newClient with connection := some c' }) ∧
      c'.writes = (freshConn []).writes ++ [[b0, b1, b2, b3, l0, l1, l2, l3] ++ [5, 6]] ∧
      c'.reads = (freshConn []).reads ∧
      ([b0, b1, b2, b3, l0, l1, l2, l3] ++ ([5, 6] : List Byte)).length =
        8 + ([5, 6] : List Byte).length ∧
      ((b0.val : Int) + 256 * b1.val + 65536 * b2.val + 16777216 * b3.val =
        if 0 ≤ (-2 : Int) then (-2 : Int) else (-2 : Int) + 4294967296) ∧
      l0.val + 256 * l1.val + 65536 * l2.val + 16777216 * l3.val =
        ([5, 6] : List Byte).length :=
  ⟨by decide, by decide,
    Write_wire_layout { newClient with connection := some (freshConn []) } (freshConn [])
      (-2) [5, 6] (by decide) (by decide) rfl⟩

/-- C1: round trip of the frame codec. Let `O` be an int32 opcode and `P` a payload shorter
than `2^31` bytes, and let `Write O P` hand its bytes to a connection. If the next two read
calls of a connection report no error and deliver exactly those bytes, the first one
filling the eight-byte header buffer, then `Read` on it succeeds with `Opcode = O`,
`Length = len(P)` and `Data = P`, after two read calls of sizes 8 and `len(P)`. -/
theorem Read_Write_roundtrip (env : Env) (a b : DiscordIPC) (ca cb : Conn) (O : Int)
    (P : List Byte) (s1 s2 : ReadStep) (rest : List ReadStep)
    (hO : -2147483648 ≤ O ∧ O < 2147483648) (hP : P.length < 2147483648)
    (ha : a.connection = some ca) (hb : b.connection = some cb)
    (hs : cb.script = s1 :: s2 :: rest) (he1 : s1.err = none) (he2 : s2.err = none)
    (h8 : s1.avail.length = 8)
    (hW : ∃ err ca', a.Write O P = .ret (err, { a with connection := some ca' }) ∧
      ca'.writes = ca.writes ++ [s1.avail ++ s2.avail]) :
    b.Read env =
      .ret (.ok { Opcode := O, Length := P.length, Data := P, Valid := env.jsonValid P },
        { b with
          connection := some { cb with script := rest, reads := cb.reads ++ [8, P.length] } }) := by
  obtain ⟨err, ca', hw, hlog⟩ := hW
  rw [DiscordIPC_Write_eq a ca O P ha] at hw
  have hca : ca' = (ca.Write (frameBytes O P)).2 := by
    simp only [Exec.ret.injEq, Prod.mk.injEq, DiscordIPC.mk.injEq, Option.some.injEq] at hw
    exact hw.2.2.2.1.symm
  rw [hca, Conn_Write_writes] at hlog
  have hfb : s1.avail ++ s2.avail = frameBytes O P := by
    have := List.append_cancel_left hlog
    simpa using this.symm
  obtain ⟨h1, h2⟩ := frameBytes_split O P s1.avail s2.avail h8 hfb
  have hs' : cb.script =
      ⟨binaryWriteInt32 O ++ binaryWriteInt32 (toInt32 P.length), none⟩ :: ⟨P, none⟩ :: rest := by
    have hs1 : s1 = ⟨binaryWriteInt32 O ++ binaryWriteInt32 (toInt32 P.length), none⟩ := by
      cases s1
      simp only [ReadStep.mk.injEq]
      exact ⟨h1, he1⟩
    have hs2 : s2 = ⟨P, none⟩ := by
      cases s2
      simp only [ReadStep.mk.injEq]
      exact ⟨h2, he2⟩
    rw [hs, hs1, hs2]
  exact Read_frameBytes env b cb O P rest hO hP hb hs'

/-- A concrete instance of `Read_Write_roundtrip`: opcode `-2`, payload `[5, 6]`. -/
theorem Read_Write_roundtrip_witness :
    DiscordIPC.Read exampleEnv
        { newClient with
          connection := some (freshConn [⟨[254, 255, 255, 255, 2, 0, 0, 0], none⟩, ⟨[5, 6], none⟩]) } =
      .ret (.ok { Opcode := -2, Length := 2, Data := [5, 6], Valid := true },
        { newClient with
          connection := some { freshConn [] with reads := [8, 2] } }) :=
  Read_Write_roundtrip exampleEnv { newClient with connection := some (freshConn []) }
    { newClient with
      connection := some (freshConn [⟨[254, 255, 255, 255, 2, 0, 0, 0], none⟩, ⟨[5, 6], none⟩]) }
    (freshConn []) (freshConn [⟨[254, 255, 255, 255, 2, 0, 0, 0], none⟩, ⟨[5, 6], none⟩])
    (-2) [5, 6] ⟨[254, 255, 255, 255, 2, 0, 0, 0], none⟩ ⟨[5, 6], none⟩ []
    (by decide) (by decide) rfl rfl rfl rfl rfl rfl
    ⟨none, { freshConn [] with writes := [[254, 255, 255, 255, 2, 0, 0, 0, 5, 6]] },
      by decide, by decide⟩

/-- C6: when the first read call yields fewer than eight bytes, with or without an error,
`Read` returns an error (hence no response) and that read call, of size 8, is the only call
made on the connection. -/
theorem Read_truncated_header (env : Env) (client : DiscordIPC) (c : Conn)
    (hc : client.connection = some c) (hn : (c.Read 8).n < 8) :
    ∃ e, client.Read env =
        .ret (.error e, { client with connection := some (c.Read 8).conn }) ∧
      (c.Read 8).conn.reads = c.reads ++ [8] ∧
      (c.Read 8).conn.writes = c.writes := by
  have hne : (c.Read 8).n ≠ 8 := by omega
  cases herr : (c.Read 8).err with
  | some e =>
    exact ⟨e, by simp only [DiscordIPC.Read, hc, herr], Conn_Read_reads c 8,
      Conn_Read_writes c 8⟩
  | none =>
    exact ⟨headerError (c.Read 8).n, by simp [DiscordIPC.Read, hc, herr, hne],
      Conn_Read_reads c 8, Conn_Read_writes c 8⟩

/-- A concrete instance of `Read_truncated_header`: the peer sends three bytes, no error. -/
theorem Read_truncated_header_witness :
    ((freshConn [⟨[1, 0, 0], none⟩]).Read 8).n < 8 ∧
    ∃ e, DiscordIPC.Read exampleEnv
          { newClient with connection := some (freshConn [⟨[1, 0, 0], none⟩]) } =
        .ret (.error e,
          { newClient with
            connection := some ((freshConn [⟨[1, 0, 0], none⟩]).Read 8).conn }) ∧
      ((freshConn [⟨[1, 0, 0], none⟩]).Read 8).conn.reads =
        (freshConn [⟨[1, 0, 0], none⟩]).reads ++ [8] ∧
      ((freshConn [⟨[1, 0, 0], none⟩]).Read 8).conn.writes =
        (freshConn [⟨[1, 0, 0], none⟩]).writes :=
  ⟨by decide,
    Read_truncated_header exampleEnv
      { newClient with connection := some (freshConn [⟨[1, 0, 0], none⟩]) }
      (freshConn [⟨[1, 0, 0], none⟩]) rfl (by decide)⟩

/-- C2, the code at the failing input: the header announces four payload bytes, the second
read call supplies two and reports no error, and `Read` returns a response, without an error,
whose `Data` is those two bytes followed by the two zero bytes the buffer was created
with. -/
theorem Read_short_payload_accepted (env : Env) :
    DiscordIPC.Read env { newClient with connection := some shortPayloadConn, connected := true } =
      .ret (.ok { Opcode := 1, Length := 4, Data := [123, 125, 0, 0],
                  Valid := env.jsonValid [123, 125, 0, 0] },
        { newClient with
          connection := some { freshConn [] with reads := [8, 4] }, connected := true }) := by
  rfl

/-! ## The session client -/

/-- C7: when `Version` is empty, or `ClientID` is empty, or the client is not connected,
`Login` returns an error (hence no response) and leaves the client, its connection and the
connection's read and write logs as they were; when `Version` or `ClientID` is empty the
error is the empty-identity one, whatever the connected flag. -/
theorem Login_precondition_failure (env : Env) (client : DiscordIPC)
    (h : client.Version = "" ∨ client.ClientID = "" ∨ client.connected = false) :
    ∃ e, client.Login env = .ret (.error e, client) ∧
      (client.Version = "" ∨ client.ClientID = "" →
        e = "client values Version and ClientID must both be set") := by
  by_cases hid : client.Version = "" ∨ client.ClientID = ""
  · exact ⟨"client values Version and ClientID must both be set",
      by simp only [DiscordIPC.Login, hid, if_true], fun _ => rfl⟩
  · have hconn : client.connected = false := by
      rcases h with h | h | h
      · exact absurd (Or.inl h) hid
      · exact absurd (Or.inr h) hid
      · exact h
    exact ⟨"client must call Connect() first",
      by simp only [DiscordIPC.Login, hid, hconn, if_true, if_false],
      fun h' => absurd h' hid⟩

/-- A concrete instance of `Login_precondition_failure`: a connected client whose `ClientID`
is empty. -/
theorem Login_precondition_failure_witness :
    (("1" : String) = "" ∨ ("" : String) = "" ∨ true = false) ∧
    ∃ e, DiscordIPC.Login exampleEnv
          { Version := "1", ClientID := "", connection := some (freshConn []),
            connected := true } =
        .ret (.error e,
          { Version := "1", ClientID := "", connection := some (freshConn []),
            connected := true }) ∧
      (("1" : String) = "" ∨ ("" : String) = "" →
        e = "client values Version and ClientID must both be set") :=
  ⟨by decide,
    Login_precondition_failure exampleEnv
      { Version := "1", ClientID := "", connection := some (freshConn []), connected := true }
      (by decide)⟩

/-- C8, counterexample: a client that is already connected calls `ConnectToInstance`, the
dial succeeds, and no error is returned. -/
theorem ConnectToInstance_connected_counterexample :
    (newClient.Connect exampleEnv).2.connected = true ∧
    ((newClient.Connect exampleEnv).2.ConnectToInstance exampleEnv "0").1 = none := by
  decide

/-- C8, amended: `ConnectToInstance` looks at the dial only. It returns an error exactly when
the dial of the instance's pipe fails, and that error is the dial's; whenever it returns an
error the client is left as it was, so an unconnected client stays unconnected with no
connection stored; when the dial succeeds it returns no error, stores the new connection and
sets the connected flag, whatever the state before. -/
theorem ConnectToInstance_dial_only (env : Env) (client : DiscordIPC) (inst : String) :
    (∀ e, (client.ConnectToInstance env inst).1 = some e ↔
      env.dialPipe ("\\\\.\\pipe\\discord-ipc-" ++ inst) = .error e) ∧
    ((client.ConnectToInstance env inst).1 ≠ none →
      (client.ConnectToInstance env inst).2 = client) ∧
    (∀ cx, env.dialPipe ("\\\\.\\pipe\\discord-ipc-" ++ inst) = .ok cx →
      client.ConnectToInstance env inst =
        (none, { client with connection := some cx, connected := true })) := by
  unfold DiscordIPC.ConnectToInstance
  cases hd : env.dialPipe ("\\\\.\\pipe\\discord-ipc-" ++ inst) with
  | error e => simp
  | ok cx => simp

/-- A concrete instance of `ConnectToInstance_dial_only`: the dial fails on a new client,
which stays unconnected. -/
theorem ConnectToInstance_dial_only_witness :
    (newClient.ConnectToInstance offlineEnv "0").1 ≠ none ∧
    (newClient.ConnectToInstance offlineEnv "0").2 = newClient ∧
    newClient.connected = false ∧ newClient.connection = none :=
  ⟨by decide,
    (ConnectToInstance_dial_only offlineEnv newClient "0").2.1 (by decide), rfl, rfl⟩

theorem Conn_Write_script (c : Conn) (b : List Byte) : (c.Write b).2.script = c.script := by
  unfold Conn.Write
  split <;> rfl

/-- C3, counterexample: a client connects, never calls `Login`, and calls `SetActivity`. No
error comes back: one frame with opcode 1 is written, the header and the payload of the
reply are read, and the decoded response is returned. -/
theorem SetActivity_before_login_counterexample :
    (newClient.Connect exampleEnv).1 = none ∧
    (newClient.Connect exampleEnv).2.SetActivity exampleEnv exampleRand exampleActivity =
      .ret (.ok exampleResponse,
        { newClient with
          connection :=
            some { freshConn [] with
                   reads := [8, 2], writes := [[1, 0, 0, 0, 2, 0, 0, 0, 123, 125]] },
          connected := true }) := by
  decide

/-- C3, amended: `SetActivity` consults no lifecycle state. Take any client that holds a
connection, whatever its connected flag and whether or not `Login` ever ran. When the nonce
source reports no error and the frame marshals to `payload`, `SetActivity` hands the
opcode-1 frame of `payload` to the connection in one write call; when that call succeeds and
the peer answers with the frame of an int32 opcode and a payload `D` that decodes to `resp`,
it reads the eight header bytes and then `D`, and returns `resp` with no error. -/
theorem SetActivity_no_lifecycle_guard (env : Env) (r : RandStep) (client : DiscordIPC)
    (c : Conn) (activity : Activity) (payload : List Byte) (rop : Int) (D : List Byte)
    (rest : List ReadStep) (resp : DiscordResponse)
    (hc : client.connection = some c) (hr : r.err = none)
    (hm : env.marshalFrame
      { Command := "SET_ACTIVITY",
        Arguments := { Pid := env.getpid, Activity := activity },
        Nonce := fillBuf 12 r.bytes } = .ok payload)
    (hw : (c.Write (frameBytes 1 payload)).1 = none)
    (hrop : -2147483648 ≤ rop ∧ rop < 2147483648) (hD : D.length < 2147483648)
    (hs : c.script =
      ⟨binaryWriteInt32 rop ++ binaryWriteInt32 (toInt32 D.length), none⟩ :: ⟨D, none⟩ :: rest)
    (hu : env.unmarshal D = .ok resp) :
    client.SetActivity env r activity =
      .ret (.ok resp,
        { client with
          connection :=
            some { (c.Write (frameBytes 1 payload)).2 with
                   script := rest, reads := c.reads ++ [8, D.length] } }) ∧
    (c.Write (frameBytes 1 payload)).2.writes = c.writes ++ [frameBytes 1 payload] := by
  have hread := Read_frameBytes env
    { client with connection := some (c.Write (frameBytes 1 payload)).2 }
    (c.Write (frameBytes 1 payload)).2 rop D rest hrop hD rfl
    (by rw [Conn_Write_script]; exact hs)
  rw [Conn_Write_reads] at hread
  refine ⟨?_, Conn_Write_writes c _⟩
  simp only [DiscordIPC.SetActivity, Nonce, hr, hm, DiscordIPC.Send,
    DiscordIPC_Write_eq client c 1 payload hc, hw, hread, hu]

/-- A concrete instance of `SetActivity_no_lifecycle_guard`: a client that holds a connection
while its connected flag is still false. -/
theorem SetActivity_no_lifecycle_guard_witness :
    DiscordIPC.SetActivity exampleEnv exampleRand
        { newClient with
          connection := some (freshConn [⟨replyHeader, none⟩, ⟨emptyObject, none⟩]) }
        exampleActivity =
      .ret (.ok exampleResponse,
        { newClient with
          connection :=
            some { freshConn [] with
                   reads := [8, 2], writes := [[1, 0, 0, 0, 2, 0, 0, 0, 123, 125]] } }) ∧
    ((freshConn [⟨replyHeader, none⟩, ⟨emptyObject, none⟩]).Write
        (frameBytes 1 emptyObject)).2.writes =
      (freshConn [⟨replyHeader, none⟩, ⟨emptyObject, none⟩]).writes ++
        [frameBytes 1 emptyObject] :=
  SetActivity_no_lifecycle_guard exampleEnv exampleRand
    { newClient with
      connection := some (freshConn [⟨replyHeader, none⟩, ⟨emptyObject, none⟩]) }
    (freshConn [⟨replyHeader, none⟩, ⟨emptyObject, none⟩]) exampleActivity emptyObject 1
    emptyObject [] exampleResponse rfl rfl rfl (by decide) (by decide) (by decide)
    (by decide) rfl

/-- C4, the code at the failing input: `Disconnect` on a client that never connected, whose
connection is nil, panics with a nil dereference before the connected flag is touched. -/
theorem Disconnect_never_connected_panics : newClient.Disconnect = .panic nilDeref := by
  decide

/-- On a client that holds a connection `Disconnect` returns, the client is left with
`connected = false`, and a second call returns the same client again. -/
theorem Disconnect_with_connection (client : DiscordIPC) (c : Conn)
    (hc : client.connection = some c) :
    ∃ client', client.Disconnect = .ret client' ∧ client'.connected = false ∧
      client'.Disconnect = .ret client' := by
  refine ⟨{ client with connection := some c.Close, connected := false }, ?_, rfl, ?_⟩
  · simp only [DiscordIPC.Disconnect, hc]
  · simp only [DiscordIPC.Disconnect, Conn.Close]

/-! ## The nonce -/

/-- C9: when the random source reports no error, `Nonce` returns a byte sequence of length
exactly 12; and `TestNonce`, run on two such outcomes, raises no complaint exactly when the
two nonces differ. -/
theorem Nonce_length (r1 r2 : RandStep) (h1 : r1.err = none) (h2 : r2.err = none) :
    ∃ n1 n2, Nonce r1 = .ret n1 ∧ Nonce r2 = .ret n2 ∧ n1.length = 12 ∧ n2.length = 12 ∧
      (TestNonce r1 r2 = .ret [] ↔ n1 ≠ n2) := by
  refine ⟨fillBuf 12 r1.bytes, fillBuf 12 r2.bytes, by simp only [Nonce, h1],
    by simp only [Nonce, h2], fillBuf_length _ _, fillBuf_length _ _, ?_⟩
  simp only [TestNonce, Nonce, h1, h2, fillBuf_length, Nat.lt_irrefl, if_false,
    List.nil_append]
  by_cases heq : fillBuf 12 r1.bytes = fillBuf 12 r2.bytes
  · simp [heq]
  · simp [heq]

/-- A concrete instance of `Nonce_length`: two outcomes of the random source, the second one
supplying only three bytes. -/
theorem Nonce_length_witness :
    ∃ n1 n2, Nonce exampleRand = .ret n1 ∧ Nonce ⟨[1, 2, 3], none⟩ = .ret n2 ∧
      n1.length = 12 ∧ n2.length = 12 ∧
      (TestNonce exampleRand ⟨[1, 2, 3], none⟩ = .ret [] ↔ n1 ≠ n2) :=
  Nonce_length exampleRand ⟨[1, 2, 3], none⟩ rfl rfl

/-! ## The window title -/

/-- The loop over rows that all have a column: it returns, with no error, the last column of
the first row whose last column is not "N/A", and the empty string when there is none. -/
theorem scanRows_eq (rows : List (List String)) (hne : ∀ row ∈ rows, row ≠ []) :
    scanRows rows =
      .ret (.ok (match rows.find? (fun row => decide (row.getLast? ≠ some "N/A")) with
        | some row => row.getLast?.getD ""
        | none => "")) := by
  induction rows with
  | nil => rfl
  | cons row rest ih =>
    have hrow : row ≠ [] := hne row (List.mem_cons_self _ _)
    have hrest : ∀ r ∈ rest, r ≠ [] := fun r hr => hne r (List.mem_cons_of_mem _ hr)
    obtain ⟨text, htext⟩ : ∃ text, row.getLast? = some text := by
      cases hl : row.getLast? with
      | none => exact absurd (List.getLast?_eq_none_iff.mp hl) hrow
      | some t => exact ⟨t, rfl⟩
    by_cases hna : text = "N/A"
    · simp [scanRows, htext, hna, ih hrest]
    · simp [scanRows, htext, hna]

/-- With the header row present and every later row holding a column, `WindowTitle` returns
what the loop finds in the rows after the header. -/
theorem WindowTitle_with_header (output : String → List String → Except String (List Byte))
    (readAll : List Byte → Except String (List (List String))) (imageName : String)
    (out : List Byte) (header : List String) (rows : List (List String))
    (ho : output "TASKLIST.EXE" ["/FI", "IMAGENAME eq " ++ imageName, "/FO", "CSV", "/V"] =
      .ok out)
    (hr : readAll out = .ok (header :: rows)) (hne : ∀ row ∈ rows, row ≠ []) :
    WindowTitle output readAll imageName =
      .ret (.ok (match rows.find? (fun row => decide (row.getLast? ≠ some "N/A")) with
        | some row => row.getLast?.getD ""
        | none => "")) := by
  simp only [WindowTitle, ho, hr, List.length_cons, List.drop_succ_cons, List.drop_zero]
  rw [if_neg (by omega)]
  exact scanRows_eq rows hne

/-- C10, the code at the failing input: TASKLIST prints nothing on standard output, the CSV
reader returns no record and no error, and `WindowTitle` panics on `records[1:]`. -/
theorem WindowTitle_no_records_panics :
    WindowTitle (fun _ _ => .ok []) (fun _ => .ok []) "TIDAL.exe" =
      .panic "runtime error: slice bounds out of range [1:0]" := by
  decide

end DiscordTidal
